import Mathlib

/-
Verification development for the local-voice-ai repository.

Part 1 embeds the metrics handling of `agent/myagent.py`: the wrapper
functions registered in `SimpleAgent.__init__` (lines 32-55) and the four
stage handlers `on_llm_metrics_collected`, `on_stt_metrics_collected`,
`on_eou_metrics_collected`, `on_tts_metrics_collected` plus `on_vad_event`
(lines 57-113).

Part 2 models the voice session pipeline (turns, interruption) from the
specification: the pipeline itself is provided by the external livekit
runtime and is not part of this repository's sources.

Part 3 embeds the aggregation and exit logic of `scripts/validate-docs.py`.

Part 4 embeds `scripts/fix-docs-references.py`.
-/

namespace LocalVoiceAI

/-- A Python runtime value as observed by the metrics handlers of
`agent/myagent.py`: `None`, a string, an int, a float (carried opaquely by
an integer payload, since the handlers never do arithmetic on it, they only
pass it through), or a bool. -/
inductive PyVal where
  | none
  | str (s : String)
  | int (n : Int)
  | float (payload : Int)
  | bool (b : Bool)
deriving DecidableEq

/-- Python truthiness of a `PyVal` (the implicit bool conversion in
`if value:` and in conditional expressions).  The opaque float payload 0
encodes the falsy float 0.0. -/
def pyTruthy : PyVal → Bool
  | .none => false
  | .str s => !s.data.isEmpty
  | .int n => n != 0
  | .float p => p != 0
  | .bool b => b

/-- Python `str(value)` applied to a `PyVal`. -/
def pyStr : PyVal → String
  | .none => "None"
  | .str s => s
  | .int n => toString n
  | .float p => toString p
  | .bool b => if b then "True" else "False"

/-- A non-numeric object stored in a `timestamp` attribute; the only
capability the handlers use on it is `.isoformat()` (a datetime). -/
structure TimeObj where
  isoformat : String
deriving DecidableEq

/-- The value of the `timestamp` attribute of a metrics event: an int, a
float (opaque payload), a datetime-like object, or `None`. -/
inductive TimeVal where
  | int (n : Int)
  | float (payload : Int)
  | obj (o : TimeObj)
  | pynone
deriving DecidableEq

/-- The test `isinstance(metrics.timestamp, (int, float))`. -/
def tsIsNumeric : TimeVal → Bool
  | .int _ => true
  | .float _ => true
  | .obj _ => false
  | .pynone => false

/-- Python truthiness of a timestamp value (a datetime object is always
truthy; `None` is falsy; 0 and 0.0 are falsy). -/
def tsTruthy : TimeVal → Bool
  | .int n => n != 0
  | .float p => p != 0
  | .obj _ => true
  | .pynone => false

/-- The timestamp value embedded as a `PyVal`, unchanged; the handlers use
it only in the numeric branch. -/
def tsNumVal : TimeVal → PyVal
  | .int n => .int n
  | .float p => .float p
  | .obj o => .str o.isoformat
  | .pynone => .none

/-- The result of `.isoformat()` on a timestamp value; only reached on a
truthy non-numeric value, which in this model is the `obj` case. -/
def tsIso : TimeVal → String
  | .obj o => o.isoformat
  | .int _ => ""
  | .float _ => ""
  | .pynone => ""

/-- Lines 62, 77, 89 and 101 of `agent/myagent.py`, identical in all four
handlers:
`metrics.timestamp if isinstance(metrics.timestamp, (int, float)) else
 metrics.timestamp.isoformat() if metrics.timestamp else None`. -/
def formatTimestamp (t : TimeVal) : PyVal :=
  if tsIsNumeric t then tsNumVal t
  else if tsTruthy t then .str (tsIso t)
  else .none

/-- The attributes of a metrics event that the handlers in
`agent/myagent.py` read.  Attributes read with a bare access such as
`metrics.duration` are plain fields; attributes read with
`getattr(metrics, "x", None)` are `Option`-valued, `Option.none` modelling
an absent attribute. -/
structure MetricEvent where
  type : PyVal
  label : PyVal
  request_id : PyVal
  timestamp : TimeVal
  duration : PyVal
  ttft : Option PyVal
  cancelled : Option PyVal
  completion_tokens : Option PyVal
  prompt_tokens : Option PyVal
  total_tokens : Option PyVal
  tokens_per_second : Option PyVal
  speech_id : Option PyVal
  error : Option PyVal
  streamed : Option PyVal
  audio_duration : Option PyVal
  end_of_utterance_delay : Option PyVal
  transcription_delay : Option PyVal
  ttfb : Option PyVal
  characters_count : Option PyVal
deriving DecidableEq

/-- The metric event with every direct attribute `None` and every
getattr-read attribute absent. -/
def absentEvent : MetricEvent :=
  { type := .none
    label := .none
    request_id := .none
    timestamp := .pynone
    duration := .none
    ttft := none
    cancelled := none
    completion_tokens := none
    prompt_tokens := none
    total_tokens := none
    tokens_per_second := none
    speech_id := none
    error := none
    streamed := none
    audio_duration := none
    end_of_utterance_delay := none
    transcription_delay := none
    ttfb := none
    characters_count := none }

/-- `getattr(metrics, "x", None)`: the attribute value when present,
`None` when absent. -/
def getattrD (o : Option PyVal) : PyVal := o.getD .none

/-- The error field expression of the STT, EOU and TTS handlers:
`str(getattr(metrics, "error", None)) if getattr(metrics, "error", None)
 else None`. -/
def errField (o : Option PyVal) : PyVal :=
  if pyTruthy (getattrD o) then .str (pyStr (getattrD o)) else .none

/-- The five metrics sources wired up in `SimpleAgent.__init__`
(lines 32-55): llm, stt, stt end-of-utterance, tts, and vad. -/
inductive Stage where
  | llm
  | stt
  | eou
  | tts
  | vad
deriving DecidableEq

/-- The record logged by `on_llm_metrics_collected` (lines 57-70), as the
ordered list of key and value of each logged field. -/
def llmRecord (m : MetricEvent) : List (String × PyVal) :=
  [("type", m.type),
   ("label", m.label),
   ("request_id", m.request_id),
   ("timestamp", formatTimestamp m.timestamp),
   ("duration", m.duration),
   ("ttft", getattrD m.ttft),
   ("cancelled", getattrD m.cancelled),
   ("completion_tokens", getattrD m.completion_tokens),
   ("prompt_tokens", getattrD m.prompt_tokens),
   ("total_tokens", getattrD m.total_tokens),
   ("tokens_per_second", getattrD m.tokens_per_second)]

/-- The record logged by `on_stt_metrics_collected` (lines 72-83). -/
def sttRecord (m : MetricEvent) : List (String × PyVal) :=
  [("type", m.type),
   ("label", m.label),
   ("request_id", m.request_id),
   ("timestamp", formatTimestamp m.timestamp),
   ("duration", m.duration),
   ("speech_id", getattrD m.speech_id),
   ("error", errField m.error),
   ("streamed", getattrD m.streamed),
   ("audio_duration", getattrD m.audio_duration)]

/-- The record logged by `on_eou_metrics_collected` (lines 85-94). -/
def eouRecord (m : MetricEvent) : List (String × PyVal) :=
  [("type", m.type),
   ("label", m.label),
   ("timestamp", formatTimestamp m.timestamp),
   ("end_of_utterance_delay", getattrD m.end_of_utterance_delay),
   ("transcription_delay", getattrD m.transcription_delay),
   ("speech_id", getattrD m.speech_id),
   ("error", errField m.error)]

/-- The record logged by `on_tts_metrics_collected` (lines 96-110). -/
def ttsRecord (m : MetricEvent) : List (String × PyVal) :=
  [("type", m.type),
   ("label", m.label),
   ("request_id", m.request_id),
   ("timestamp", formatTimestamp m.timestamp),
   ("ttfb", getattrD m.ttfb),
   ("duration", m.duration),
   ("audio_duration", getattrD m.audio_duration),
   ("cancelled", getattrD m.cancelled),
   ("characters_count", getattrD m.characters_count),
   ("streamed", getattrD m.streamed),
   ("speech_id", getattrD m.speech_id),
   ("error", errField m.error)]

/-- Running the handler registered for a stage on one event.  The first
component is the record exported through `logger.info` (`Option.none` when
the handler exports nothing); the second component is the state of the
event after the handler returns.  The bodies contain no assignment to the
event, so each handler returns the event it received; `on_vad_event`
(lines 112-113) is the bare expression `None` and exports nothing. -/
def runHandler (s : Stage) (m : MetricEvent) :
    Option (List (String × PyVal)) × MetricEvent :=
  match s with
  | .llm => (some (llmRecord m), m)
  | .stt => (some (sttRecord m), m)
  | .eou => (some (eouRecord m), m)
  | .tts => (some (ttsRecord m), m)
  | .vad => (none, m)

/-- The stages whose wrapper is registered with `.on(...)` in
`SimpleAgent.__init__` (lines 35, 40, 45, 50, 55). -/
def registeredStages : List Stage :=
  [.llm, .stt, .eou, .tts, .vad]

/-- How many dropped events the agent code counts for a stage and event:
`agent/myagent.py` maintains no drop counter of any kind, so the count is
always zero. -/
def dropsCounted (_ : Stage) (_ : MetricEvent) : Nat := 0

/-- The value logged under the key `timestamp` by the handler of a stage. -/
def tsFieldOf (s : Stage) (m : MetricEvent) : Option PyVal :=
  (runHandler s m).1.bind (fun r => List.lookup "timestamp" r)

/-- A background task spawned with `asyncio.create_task` by one of the
metrics wrapper functions: it holds the handler to run and the event. -/
structure SpawnedTask where
  stage : Stage
  event : MetricEvent
deriving DecidableEq

/-- One call of a metrics wrapper (lines 32-55): `asyncio.create_task`
schedules one new task for the event and returns immediately; the list of
pending tasks grows by one. -/
def metricsWrapperSpawn (s : Stage) (e : MetricEvent)
    (pending : List SpawnedTask) : List SpawnedTask :=
  pending ++ [⟨s, e⟩]

/-- Reporting a sequence of events through the registered wrappers, each
call spawning one task. -/
def reportAll : List (Stage × MetricEvent) → List SpawnedTask → List SpawnedTask
  | [], pending => pending
  | (s, e) :: rest, pending => reportAll rest (metricsWrapperSpawn s e pending)

/-- Modelled from the spec: the MetricsBus reporting discipline of spec
section 4.7 and section 5, which the repository's agent does not contain --
a non-blocking handoff into a bounded queue, so that the number of pending
tasks after reporting any event sequence is bounded by a fixed capacity. -/
def boundedReportHandoff : Prop :=
  ∃ cap : Nat, ∀ events : List (Stage × MetricEvent),
    (reportAll events []).length ≤ cap

/-- The field set of the spec's export schema for the LLM stage
(spec section 6). -/
def llmSchemaFields : List String :=
  ["type", "label", "request_id", "timestamp", "duration",
   "time_to_first_token", "cancelled", "completion_token_count",
   "prompt_token_count", "total_token_count", "tokens_per_second"]

/-- The field set of the spec's export schema for the STT stage. -/
def sttSchemaFields : List String :=
  ["type", "label", "request_id", "timestamp", "duration",
   "speech_id", "error", "streamed", "audio_duration"]

/-- The field set of the spec's export schema for the end-of-utterance
stage. -/
def eouSchemaFields : List String :=
  ["type", "label", "timestamp", "end_of_utterance_delay",
   "transcription_delay", "speech_id", "error"]

/-- The field set of the spec's export schema for the TTS stage. -/
def ttsSchemaFields : List String :=
  ["type", "label", "request_id", "timestamp", "time_to_first_byte",
   "duration", "audio_duration", "cancelled", "character_count",
   "streamed", "speech_id", "error"]

/-- The key under which the agent code logs each spec schema field: six
fields are logged under the abbreviated attribute name used by the code,
every other field under the schema name itself. -/
def specFieldKey (f : String) : String :=
  if f == "time_to_first_token" then "ttft"
  else if f == "completion_token_count" then "completion_tokens"
  else if f == "prompt_token_count" then "prompt_tokens"
  else if f == "total_token_count" then "total_tokens"
  else if f == "time_to_first_byte" then "ttfb"
  else if f == "character_count" then "characters_count"
  else f

/-- Modelled from the spec: the turn states of spec section 3 — the voice
session pipeline is implemented by the external livekit runtime, not by
this repository's sources, so the turn machine is taken from the spec's
words. -/
inductive TurnState where
  | listening
  | transcribing
  | finalized
  | replying
  | speaking
  | interrupted
  | completed
deriving DecidableEq

/-- Modelled from the spec: `interrupted` and `completed` are the terminal
turn states (spec section 3, invariant (b)). -/
def TurnState.isTerminal : TurnState → Bool
  | .interrupted => true
  | .completed => true
  | .listening => false
  | .transcribing => false
  | .finalized => false
  | .replying => false
  | .speaking => false

/-- Modelled from the spec: a turn with its monotonic id and current
state (spec section 3). -/
structure Turn where
  id : Nat
  state : TurnState
deriving DecidableEq

/-- A turn is active when its state is non-terminal. -/
def isActive (t : Turn) : Bool := !t.state.isTerminal

/-- Modelled from the spec: the events that reach the orchestrator's
single serialized decision point (spec sections 4.2-4.6): the turn
boundary events of the detector, the stage hand-off points, the
synthesizer buffering a chunk, and the output boundary draining buffered
audio. -/
inductive PipeEvent where
  | speechStart
  | speechEnd
  | replyStart
  | synthStart
  | synthChunk (c : Nat)
  | flush
  | playbackDone
deriving DecidableEq

/-- Modelled from the spec: synthesized audio tied to a turn id
(spec section 3). -/
structure AudioOutputChunk where
  turnId : Nat
  chunk : Nat
deriving DecidableEq

/-- Modelled from the spec: the orchestrator state — the ordered turn
history, the next fresh turn id, and audio buffered internally but not yet
emitted to the output boundary. -/
structure SessState where
  turns : List Turn
  nextId : Nat
  buffer : List AudioOutputChunk
deriving DecidableEq

/-- The session state at connect time: no turns, no buffered audio. -/
def initState : SessState := ⟨[], 0, []⟩

/-- Set the state of every active turn (under the central invariant there
is at most one) to the given state; terminal turns are never touched. -/
def setActiveState (ts : List Turn) (st : TurnState) : List Turn :=
  ts.map fun t => if isActive t then { t with state := st } else t

/-- Advance the active turn from an expected state to the next state; any
other situation is ignored by the serialized decision point. -/
def advanceActive (s : SessState) (src dst : TurnState) : SessState :=
  match s.turns.find? isActive with
  | some t => if t.state = src then { s with turns := setActiveState s.turns dst } else s
  | none => s

/-- Modelled from the spec: one decision of the orchestrator's serialized
arbitration point (spec sections 4.2, 4.3, 4.6): a `speechStart` while the
active turn is `replying` or `speaking` interrupts that turn, drops its
buffered-but-unsent audio and opens the next turn; audio chunks are
buffered for the speaking turn and emitted to the output boundary only
while their turn is still the active speaking turn.  The second component
is the list of chunks crossing the output boundary at this decision. -/
def step (s : SessState) (e : PipeEvent) : SessState × List AudioOutputChunk :=
  match e with
  | .speechStart =>
    match s.turns.find? isActive with
    | some t =>
      if t.state = .replying ∨ t.state = .speaking then
        ({ turns := setActiveState s.turns .interrupted ++ [⟨s.nextId, .transcribing⟩],
           nextId := s.nextId + 1,
           buffer := s.buffer.filter (fun c => c.turnId != t.id) }, [])
      else (s, [])
    | none =>
      ({ turns := s.turns ++ [⟨s.nextId, .transcribing⟩],
         nextId := s.nextId + 1,
         buffer := s.buffer }, [])
  | .speechEnd => (advanceActive s .transcribing .finalized, [])
  | .replyStart => (advanceActive s .finalized .replying, [])
  | .synthStart => (advanceActive s .replying .speaking, [])
  | .synthChunk c =>
    match s.turns.find? isActive with
    | some t =>
      if t.state = .speaking then
        ({ s with buffer := s.buffer ++ [⟨t.id, c⟩] }, [])
      else (s, [])
    | none => (s, [])
  | .flush =>
    match s.turns.find? isActive with
    | some t =>
      if t.state = .speaking then
        ({ s with buffer := s.buffer.filter (fun c => c.turnId != t.id) },
         s.buffer.filter (fun c => c.turnId == t.id))
      else (s, [])
    | none => (s, [])
  | .playbackDone =>
    match s.turns.find? isActive with
    | some t =>
      if t.state = .speaking then
        ({ turns := setActiveState s.turns .completed,
           nextId := s.nextId,
           buffer := s.buffer.filter (fun c => c.turnId != t.id) },
         s.buffer.filter (fun c => c.turnId == t.id))
      else (s, [])
    | none => (s, [])

/-- The session state after processing a sequence of events. -/
def runState (s : SessState) : List PipeEvent → SessState
  | [] => s
  | e :: es => runState (step s e).1 es

/-- The audio chunks emitted to the output boundary while processing a
sequence of events. -/
def runOutputs (s : SessState) : List PipeEvent → List AudioOutputChunk
  | [] => []
  | e :: es => (step s e).2 ++ runOutputs (step s e).1 es

/-- The number of active (non-terminal) turns of a session state. -/
def countActive (s : SessState) : Nat := (s.turns.filter isActive).length

/-- The detector reported a `speechStart` while the active turn has the
given id and is `replying` or `speaking` — the barge-in situation of spec
section 4.6. -/
def activeReplyingOrSpeaking (s : SessState) (n : Nat) : Bool :=
  match s.turns.find? isActive with
  | some t => t.id == n && (t.state == .replying || t.state == .speaking)
  | none => false

/-- Turn ids are consistent: every turn id is below the fresh id counter
and no id repeats. -/
def IdsOk (s : SessState) : Prop :=
  (∀ t ∈ s.turns, t.id < s.nextId) ∧ (s.turns.map Turn.id).Nodup

/-- Some turn with the given id has reached a terminal state. -/
def deadTurn (s : SessState) (n : Nat) : Prop :=
  ∃ t ∈ s.turns, t.id = n ∧ t.state.isTerminal = true

/-- Python `s.startswith(p)` as the handful of string operations of
`scripts/validate-docs.py` use it. -/
def pyStartsWith (s p : String) : Bool :=
  s.data.take p.data.length == p.data

/-- Python `s.endswith(p)`. -/
def pyEndsWith (s p : String) : Bool :=
  s.data.drop (s.data.length - p.data.length) == p.data

/-- The error and warning accumulators of `DocumentationValidator`
(`scripts/validate-docs.py` lines 33-34) as they stand after all checks
have run; the checks themselves read the file system and are taken as
arbitrary here. -/
structure ValidatorState where
  errors : List String
  warnings : List String
deriving DecidableEq

/-- The value returned by `validate_all` (line 112):
`return len(self.errors) == 0`. -/
def validate_all_result (v : ValidatorState) : Bool :=
  v.errors.length == 0

/-- The process exit status chosen by `main` (lines 444-453): exit 1 when
`validate_all` returned False, exit 1 when `--strict` is set and the
warnings list is truthy (non-empty), exit 0 otherwise. -/
def mainExitCode (strict : Bool) (v : ValidatorState) : Nat :=
  if !(validate_all_result v) then 1
  else if strict && !v.warnings.isEmpty then 1
  else 0

/-- `DocumentationValidator.is_valid_target` (lines 176-203).  `target` is
the link target with anchors stripped; `sourceDir` is the source file's
directory relative to the docs directory, `Option.none` when the source
file sits at the docs root (the `source_dir != Path(".")` test);
`validTargets` is the set of valid targets built from the markdown files. -/
def is_valid_target (target : String) (sourceDir : Option String)
    (validTargets : List String) : Bool :=
  if validTargets.contains target then true
  else if pyStartsWith target "../" then true
  else if (match sourceDir with
           | some d => validTargets.contains (d ++ "/" ++ target)
           | none => false) then true
  else if !(pyEndsWith target ".md") && validTargets.contains (target ++ ".md") then true
  else if target == "services/index.md" then true
  else false

/-- Leftmost non-overlapping replacement of `pat` by `repl` in a
character list, with a fuel argument for structural termination; fuel at
least the length of the list is enough, since every step consumes at least
one character. -/
def replaceFuel (pat repl : List Char) : Nat → List Char → List Char
  | 0, l => l
  | _ + 1, [] => []
  | fuel + 1, c :: rest =>
    if (c :: rest).take pat.length == pat then
      repl ++ replaceFuel pat repl fuel ((c :: rest).drop pat.length)
    else
      c :: replaceFuel pat repl fuel rest

/-- Python `content.replace(old, new)` (replace every occurrence).  The
calls in `scripts/fix-docs-references.py` all use non-empty `old`; for an
empty `old` with `new == old` the result is also the unchanged string. -/
def pyReplace (s old new : String) : String :=
  if old.data.isEmpty then s
  else ⟨replaceFuel old.data new.data s.data.length s.data⟩

/-- The three `content.replace(...)` calls applied to each service file by
`fix_references` (`scripts/fix-docs-references.py` lines 30-32); each call
replaces a literal with that same literal. -/
def fixServiceContent (content : String) : String :=
  pyReplace
    (pyReplace
      (pyReplace content
        "[docs/architecture.md](../architecture.md)"
        "[docs/architecture.md](../architecture.md)")
      "[docs/coding-standards.md](../coding-standards.md)"
      "[docs/coding-standards.md](../coding-standards.md)")
    "[docs/development-workflow.md](../development-workflow.md)"
    "[docs/development-workflow.md](../development-workflow.md)"

/-- The five `content.replace(...)` calls applied to the maintenance guide
by `fix_references` (lines 43-49). -/
def fixMaintenanceContent (content : String) : String :=
  pyReplace
    (pyReplace
      (pyReplace
        (pyReplace
          (pyReplace content
            "[`agent/myagent.py`](../agent/myagent.py:1)"
            "[`agent/myagent.py`](../../agent/myagent.py:1)")
          "[`docker-compose.yml`](../docker-compose.yml:44-50)"
          "[`docker-compose.yml`](../../docker-compose.yml:44-50)")
        "[`LocalAgent.__init__()`](../agent/myagent.py:57)"
        "[`LocalAgent.__init__()`](../../agent/myagent.py:57)")
      "[New Service](services/new-service.md)"
      "[New Service](services/new-service.md)")
    "[New Service](services/new-service.md)"
    "[New Service](services/agent.md)"

/-- The service documentation files iterated over by `fix_references`
(lines 15-22), as paths relative to the docs directory. -/
def service_files : List String :=
  ["services/agent.md",
   "services/whisper.md",
   "services/ollama.md",
   "services/kokoro.md",
   "services/livekit.md",
   "services/frontend.md"]

/-- `fix_references` (lines 10-52) as a transformation of the docs
directory contents: `fs` maps a path relative to the docs directory to the
file's content, `Option.none` when the file does not exist (the
`file_path.exists()` guards).  Each existing service file is rewritten
with the three service replacements; an existing `maintenance-guide.md` is
rewritten with its five replacements; every other file is untouched. -/
def fix_references (fs : String → Option String) : String → Option String :=
  fun p =>
    if service_files.contains p then (fs p).map fixServiceContent
    else if p == "maintenance-guide.md" then (fs p).map fixMaintenanceContent
    else fs p

end LocalVoiceAI

namespace LocalVoiceAI

/-- The timestamp expression of the handlers, case by case: numeric
timestamps pass through unchanged, truthy non-numeric timestamps are
rendered with isoformat, everything else becomes None. -/
theorem formatTimestamp_cases (t : TimeVal) :
    (tsIsNumeric t = true → formatTimestamp t = tsNumVal t)
    ∧ (tsIsNumeric t = false → tsTruthy t = true →
        formatTimestamp t = PyVal.str (tsIso t))
    ∧ (tsIsNumeric t = false → tsTruthy t = false →
        formatTimestamp t = PyVal.none) := by
  cases t <;> simp [formatTimestamp, tsIsNumeric, tsTruthy, tsNumVal, tsIso]

/-- Reporting events through the wrappers appends one spawned task per
event, in arrival order. -/
theorem reportAll_eq (events : List (Stage × MetricEvent))
    (pending : List SpawnedTask) :
    reportAll events pending =
      pending ++ events.map (fun se => ⟨se.1, se.2⟩) := by
  induction events generalizing pending with
  | nil => simp [reportAll]
  | cons se rest ih =>
    cases se with
    | mk s e =>
      simp [reportAll, metricsWrapperSpawn, ih]

/-- The number of pending tasks grows by exactly the number of reported
events. -/
theorem reportAll_length (events : List (Stage × MetricEvent))
    (pending : List SpawnedTask) :
    (reportAll events pending).length = pending.length + events.length := by
  rw [reportAll_eq]
  simp

/-- C1: the claim that every event delivered to a registered metrics
handler produces an exported record or a counted drop is false: the VAD
wrapper is registered (line 55 of `agent/myagent.py`), but `on_vad_event`
(lines 112-113) exports nothing and the code counts no drop. -/
theorem c1_counterexample :
    ¬ (∀ s ∈ registeredStages, ∀ e : MetricEvent,
        (runHandler s e).1.isSome = true ∨ 0 < dropsCounted s e) := by
  intro h
  rcases h Stage.vad (by decide) absentEvent with h1 | h2
  · simp [runHandler] at h1
  · simp [dropsCounted] at h2

/-- C1 (amended): every event delivered to the LLM, STT, end-of-utterance
or TTS handler produces an exported record, but every event delivered to
the registered VAD handler is silently discarded: it produces no record
and no drop is counted. -/
theorem c1_amended_handlers (e : MetricEvent) :
    ((runHandler Stage.llm e).1.isSome = true
      ∧ (runHandler Stage.stt e).1.isSome = true
      ∧ (runHandler Stage.eou e).1.isSome = true
      ∧ (runHandler Stage.tts e).1.isSome = true)
    ∧ (runHandler Stage.vad e).1 = none
    ∧ dropsCounted Stage.vad e = 0 :=
  ⟨⟨rfl, rfl, rfl, rfl⟩, rfl, rfl⟩

/-- C2: for every event, each stage handler logs exactly the field set of
that stage's export schema, in schema order, under the code's key for each
schema field; every field is emitted whatever the event holds, and on the
event with every attribute absent each field is emitted with value None. -/
theorem c2_export_schema_fields (m : MetricEvent) :
    ((llmRecord m).map Prod.fst = llmSchemaFields.map specFieldKey
      ∧ (sttRecord m).map Prod.fst = sttSchemaFields.map specFieldKey
      ∧ (eouRecord m).map Prod.fst = eouSchemaFields.map specFieldKey
      ∧ (ttsRecord m).map Prod.fst = ttsSchemaFields.map specFieldKey)
    ∧ (llmRecord absentEvent =
        [("type", PyVal.none), ("label", PyVal.none),
         ("request_id", PyVal.none), ("timestamp", PyVal.none),
         ("duration", PyVal.none), ("ttft", PyVal.none),
         ("cancelled", PyVal.none), ("completion_tokens", PyVal.none),
         ("prompt_tokens", PyVal.none), ("total_tokens", PyVal.none),
         ("tokens_per_second", PyVal.none)]
      ∧ sttRecord absentEvent =
        [("type", PyVal.none), ("label", PyVal.none),
         ("request_id", PyVal.none), ("timestamp", PyVal.none),
         ("duration", PyVal.none), ("speech_id", PyVal.none),
         ("error", PyVal.none), ("streamed", PyVal.none),
         ("audio_duration", PyVal.none)]
      ∧ eouRecord absentEvent =
        [("type", PyVal.none), ("label", PyVal.none),
         ("timestamp", PyVal.none), ("end_of_utterance_delay", PyVal.none),
         ("transcription_delay", PyVal.none), ("speech_id", PyVal.none),
         ("error", PyVal.none)]
      ∧ ttsRecord absentEvent =
        [("type", PyVal.none), ("label", PyVal.none),
         ("request_id", PyVal.none), ("timestamp", PyVal.none),
         ("ttfb", PyVal.none), ("duration", PyVal.none),
         ("audio_duration", PyVal.none), ("cancelled", PyVal.none),
         ("characters_count", PyVal.none), ("streamed", PyVal.none),
         ("speech_id", PyVal.none), ("error", PyVal.none)]) :=
  ⟨⟨rfl, rfl, rfl, rfl⟩, rfl, rfl, rfl, rfl⟩

/-- C3: every record-producing stage handler logs under `timestamp`
exactly the value of the shared timestamp expression, which is the numeric
timestamp unchanged when the event's timestamp is an int or a float, the
isoformat string when the timestamp is truthy and non-numeric, and None
otherwise. -/
theorem c3_timestamp_format (s : Stage) (e : MetricEvent)
    (h : s ≠ Stage.vad) :
    tsFieldOf s e = some (formatTimestamp e.timestamp)
    ∧ (tsIsNumeric e.timestamp = true →
        formatTimestamp e.timestamp = tsNumVal e.timestamp)
    ∧ (tsIsNumeric e.timestamp = false → tsTruthy e.timestamp = true →
        formatTimestamp e.timestamp = PyVal.str (tsIso e.timestamp))
    ∧ (tsIsNumeric e.timestamp = false → tsTruthy e.timestamp = false →
        formatTimestamp e.timestamp = PyVal.none) := by
  have ht := formatTimestamp_cases e.timestamp
  cases s with
  | llm => exact ⟨rfl, ht⟩
  | stt => exact ⟨rfl, ht⟩
  | eou => exact ⟨rfl, ht⟩
  | tts => exact ⟨rfl, ht⟩
  | vad => exact absurd rfl h

/-- Witness for C3 at the LLM stage and a concrete event carrying a
datetime timestamp. -/
theorem c3_timestamp_format_witness :
    tsFieldOf Stage.llm { absentEvent with timestamp := .obj ⟨"2024-01-01T00:00:00"⟩ }
      = some (formatTimestamp (.obj ⟨"2024-01-01T00:00:00"⟩))
    ∧ (tsIsNumeric (TimeVal.obj ⟨"2024-01-01T00:00:00"⟩) = true →
        formatTimestamp (.obj ⟨"2024-01-01T00:00:00"⟩)
          = tsNumVal (.obj ⟨"2024-01-01T00:00:00"⟩))
    ∧ (tsIsNumeric (TimeVal.obj ⟨"2024-01-01T00:00:00"⟩) = false →
        tsTruthy (.obj ⟨"2024-01-01T00:00:00"⟩) = true →
        formatTimestamp (.obj ⟨"2024-01-01T00:00:00"⟩)
          = PyVal.str (tsIso (.obj ⟨"2024-01-01T00:00:00"⟩)))
    ∧ (tsIsNumeric (TimeVal.obj ⟨"2024-01-01T00:00:00"⟩) = false →
        tsTruthy (.obj ⟨"2024-01-01T00:00:00"⟩) = false →
        formatTimestamp (.obj ⟨"2024-01-01T00:00:00"⟩) = PyVal.none) :=
  c3_timestamp_format Stage.llm
    { absentEvent with timestamp := .obj ⟨"2024-01-01T00:00:00"⟩ }
    (by decide)

/-- C4: the claim that reporting is a handoff into a bounded queue is
false: no capacity bounds the tasks spawned by the registered metrics
wrappers, since each reported event spawns one more task. -/
theorem c4_counterexample : ¬ boundedReportHandoff := by
  rintro ⟨cap, h⟩
  have h1 := h (List.replicate (cap + 1) (Stage.vad, absentEvent))
  rw [reportAll_length] at h1
  simp at h1

/-- C4 (amended): the report operation never blocks the caller, but it is
not a bounded queue: each wrapper call schedules exactly one background
task per event via the registered listeners, so the pending tasks grow
without bound, one per reported event, with no drop counting. -/
theorem c4_amended_task_per_event (events : List (Stage × MetricEvent))
    (pending : List SpawnedTask) :
    (reportAll events pending).length = pending.length + events.length
    ∧ reportAll events pending
        = pending ++ events.map (fun se => ⟨se.1, se.2⟩) :=
  ⟨reportAll_length events pending, reportAll_eq events pending⟩

/-- C5: each of the four record-producing metrics handlers returns the
metric event exactly as it received it: the bodies only read the event's
attributes to build the exported record. -/
theorem c5_handlers_pure (m : MetricEvent) :
    (runHandler Stage.llm m).2 = m
    ∧ (runHandler Stage.stt m).2 = m
    ∧ (runHandler Stage.eou m).2 = m
    ∧ (runHandler Stage.tts m).2 = m :=
  ⟨rfl, rfl, rfl, rfl⟩

/-- C8: `validate_all` returns True exactly when the errors list is empty
after all checks; the process exits 0 exactly when the errors list is
empty and, when strict mode is on, the warnings list is empty too; with
strict mode off, warnings alone never cause a non-zero exit. -/
theorem c8_exit_logic (strict : Bool) (v : ValidatorState) :
    (validate_all_result v = true ↔ v.errors = [])
    ∧ (mainExitCode strict v = 0 ↔
        (v.errors = [] ∧ (strict = false ∨ v.warnings = [])))
    ∧ (mainExitCode false v = 0 ↔ v.errors = []) := by
  refine ⟨?_, ?_, ?_⟩
  · simp [validate_all_result, List.length_eq_zero]
  · rcases v with ⟨errs, warns⟩
    cases errs <;> cases strict <;> cases warns <;>
      simp [mainExitCode, validate_all_result, List.isEmpty]
  · rcases v with ⟨errs, warns⟩
    cases errs <;>
      simp [mainExitCode, validate_all_result, List.isEmpty]

/-- C9: a link target that begins with "../" is always accepted by
`is_valid_target`, whatever the source directory and whatever targets were
collected from the docs tree, so such cross references are never reported
invalid. -/
theorem c9_parent_dir_targets (target : String) (sourceDir : Option String)
    (validTargets : List String)
    (h : pyStartsWith target "../" = true) :
    is_valid_target target sourceDir validTargets = true := by
  unfold is_valid_target
  split
  · rfl
  · simp [h]

/-- Witness for C9: a target pointing above the docs directory is accepted
even with an empty valid-target set. -/
theorem c9_parent_dir_targets_witness :
    is_valid_target "../README.md" none [] = true :=
  c9_parent_dir_targets "../README.md" none [] (by decide)

/-- Replacing a pattern by itself leaves any character list unchanged. -/
theorem replaceFuel_self (pat : List Char) (fuel : Nat) :
    ∀ l : List Char, replaceFuel pat pat fuel l = l := by
  induction fuel with
  | zero => intro l; rfl
  | succ f ih =>
    intro l
    cases l with
    | nil => rfl
    | cons c rest =>
      by_cases h : ((c :: rest).take pat.length == pat) = true
      · have htake : (c :: rest).take pat.length = pat := by
          exact eq_of_beq h
        calc replaceFuel pat pat (f + 1) (c :: rest)
            = pat ++ replaceFuel pat pat f ((c :: rest).drop pat.length) := by
              simp [replaceFuel, h]
          _ = pat ++ (c :: rest).drop pat.length := by rw [ih]
          _ = (c :: rest).take pat.length ++ (c :: rest).drop pat.length := by
              rw [htake]
          _ = c :: rest := List.take_append_drop _ _
      · calc replaceFuel pat pat (f + 1) (c :: rest)
            = c :: replaceFuel pat pat f rest := by simp [replaceFuel, h]
          _ = c :: rest := by rw [ih]

/-- Python replace of a string by itself is the identity. -/
theorem pyReplace_self (s p : String) : pyReplace s p p = s := by
  unfold pyReplace
  split
  · rfl
  · rw [replaceFuel_self]

/-- The three service-file replacements compose to the identity. -/
theorem fixServiceContent_id (content : String) :
    fixServiceContent content = content := by
  unfold fixServiceContent
  rw [pyReplace_self, pyReplace_self, pyReplace_self]

/-- C10: for every service documentation file, `fix_references` leaves the
docs directory entry unchanged: each of the three replace calls
substitutes a string with that same string, so an existing file is written
back with exactly the content that was read (and a missing file stays
missing). -/
theorem c10_fix_service_identity (fs : String → Option String) (p : String)
    (hp : service_files.contains p = true) :
    fix_references fs p = fs p := by
  unfold fix_references
  rw [if_pos hp]
  cases fs p with
  | none => rfl
  | some content => simp [fixServiceContent_id]

/-- Witness for C10: a concrete docs directory holding one service file
whose content uses the replaced reference pattern. -/
theorem c10_fix_service_identity_witness :
    fix_references
      (fun p => if p == "services/agent.md"
        then some "see [docs/architecture.md](../architecture.md) for details"
        else none)
      "services/agent.md"
    = (fun p => if p == "services/agent.md"
        then some "see [docs/architecture.md](../architecture.md) for details"
        else none)
      "services/agent.md" :=
  c10_fix_service_identity
    (fun p => if p == "services/agent.md"
      then some "see [docs/architecture.md](../architecture.md) for details"
      else none)
    "services/agent.md" (by decide)

/-- Setting the active turn's state never changes any turn id. -/
theorem setActiveState_map_id (ts : List Turn) (st : TurnState) :
    (setActiveState ts st).map Turn.id = ts.map Turn.id := by
  induction ts with
  | nil => rfl
  | cons t ts ih =>
    simp only [setActiveState, List.map_cons] at ih ⊢
    by_cases h : isActive t = true
    · simp [h, ih]
    · simp [h, ih]

/-- The updated copy of an active member is a member of the update. -/
theorem mem_setActiveState_of_active {ts : List Turn} {st : TurnState}
    {t : Turn} (ht : t ∈ ts) (ha : isActive t = true) :
    ({ t with state := st } : Turn) ∈ setActiveState ts st := by
  unfold setActiveState
  have heq : (fun t => if isActive t then { t with state := st } else t) t
      = { t with state := st } := by simp [ha]
  exact heq ▸ List.mem_map_of_mem _ ht

/-- A terminal member survives the update unchanged. -/
theorem mem_setActiveState_of_terminal {ts : List Turn} {st : TurnState}
    {t : Turn} (ht : t ∈ ts) (ha : isActive t = false) :
    t ∈ setActiveState ts st := by
  unfold setActiveState
  have heq : (fun t => if isActive t then { t with state := st } else t) t
      = t := by simp [ha]
  exact heq ▸ List.mem_map_of_mem _ ht

/-- After setting the active turns to a terminal state no turn is
active. -/
theorem filter_setActiveState_terminal (ts : List Turn) (st : TurnState)
    (h : st.isTerminal = true) :
    (setActiveState ts st).filter isActive = [] := by
  induction ts with
  | nil => rfl
  | cons t ts ih =>
    by_cases ha : isActive t = true
    · have h1 : setActiveState (t :: ts) st
          = ({ t with state := st } : Turn) :: setActiveState ts st := by
        simp [setActiveState, ha]
      have hterm : isActive ({ t with state := st } : Turn) = false := by
        simp [isActive, h]
      rw [h1, List.filter_cons]
      simp [hterm, ih]
    · have h1 : setActiveState (t :: ts) st = t :: setActiveState ts st := by
        simp [setActiveState, ha]
      rw [h1, List.filter_cons]
      simp [ha, ih]

/-- Setting the active turns to a non-terminal state keeps the number of
active turns. -/
theorem filter_setActiveState_nonterminal (ts : List Turn) (st : TurnState)
    (h : st.isTerminal = false) :
    ((setActiveState ts st).filter isActive).length
      = (ts.filter isActive).length := by
  induction ts with
  | nil => rfl
  | cons t ts ih =>
    by_cases ha : isActive t = true
    · have h1 : setActiveState (t :: ts) st
          = ({ t with state := st } : Turn) :: setActiveState ts st := by
        simp [setActiveState, ha]
      have hact : isActive ({ t with state := st } : Turn) = true := by
        simp [isActive, h]
      rw [h1, List.filter_cons, List.filter_cons]
      simp [hact, ha, ih]
    · have h1 : setActiveState (t :: ts) st = t :: setActiveState ts st := by
        simp [setActiveState, ha]
      rw [h1, List.filter_cons, List.filter_cons]
      simp [ha, ih]

/-- Advancing the active turn to a non-terminal state keeps the active
count bounded. -/
theorem countActive_advanceActive (s : SessState) (src dst : TurnState)
    (h : dst.isTerminal = false) (hc : countActive s ≤ 1) :
    countActive (advanceActive s src dst) ≤ 1 := by
  unfold advanceActive
  cases hf : s.turns.find? isActive with
  | none => simp only [hf]; exact hc
  | some t =>
    simp only [hf]
    by_cases hst : t.state = src
    · rw [if_pos hst]
      unfold countActive at hc ⊢
      rw [filter_setActiveState_nonterminal _ _ h]
      exact hc
    · rw [if_neg hst]
      exact hc

/-- One orchestrator decision preserves the central invariant: at most
one active turn. -/
theorem step_countActive (s : SessState) (e : PipeEvent)
    (h : countActive s ≤ 1) : countActive (step s e).1 ≤ 1 := by
  cases e with
  | speechStart =>
    unfold step
    cases hf : s.turns.find? isActive with
    | none =>
      simp only [hf]
      have hempty : s.turns.filter isActive = [] := by
        rw [List.filter_eq_nil_iff]
        exact List.find?_eq_none.mp hf
      unfold countActive
      simp [List.filter_append, hempty, isActive, TurnState.isTerminal]
    | some t =>
      simp only [hf]
      by_cases hst : t.state = .replying ∨ t.state = .speaking
      · rw [if_pos hst]
        unfold countActive
        simp [List.filter_append,
          filter_setActiveState_terminal s.turns .interrupted rfl,
          isActive, TurnState.isTerminal]
      · rw [if_neg hst]
        exact h
  | speechEnd => exact countActive_advanceActive s _ _ rfl h
  | replyStart => exact countActive_advanceActive s _ _ rfl h
  | synthStart => exact countActive_advanceActive s _ _ rfl h
  | synthChunk c =>
    unfold step
    cases hf : s.turns.find? isActive with
    | none => simp only [hf]; exact h
    | some t =>
      simp only [hf]
      by_cases hst : t.state = .speaking
      · rw [if_pos hst]; exact h
      · rw [if_neg hst]; exact h
  | flush =>
    unfold step
    cases hf : s.turns.find? isActive with
    | none => simp only [hf]; exact h
    | some t =>
      simp only [hf]
      by_cases hst : t.state = .speaking
      · rw [if_pos hst]; exact h
      · rw [if_neg hst]; exact h
  | playbackDone =>
    unfold step
    cases hf : s.turns.find? isActive with
    | none => simp only [hf]; exact h
    | some t =>
      simp only [hf]
      by_cases hst : t.state = .speaking
      · rw [if_pos hst]
        unfold countActive
        simp [filter_setActiveState_terminal s.turns .completed rfl]
      · rw [if_neg hst]
        exact h

/-- Running any event sequence preserves the active-turn bound. -/
theorem countActive_runState (es : List PipeEvent) :
    ∀ s : SessState, countActive s ≤ 1 → countActive (runState s es) ≤ 1 := by
  induction es with
  | nil => intro s h; exact h
  | cons e es ih =>
    intro s h
    exact ih (step s e).1 (step_countActive s e h)

/-- C6: for every event sequence processed from session start, at most
one turn is in a non-terminal state. -/
theorem c6_at_most_one_active (es : List PipeEvent) :
    countActive (runState initState es) ≤ 1 := by
  exact countActive_runState es initState (by decide)

/-- Turn-id bookkeeping survives any bound-preserving rewrite of the turn
list followed by appending one fresh turn. -/
theorem idsOk_of_map_eq {ts ts' : List Turn} {ni ni' : Nat}
    (hmap : ts'.map Turn.id = ts.map Turn.id) (hle : ni ≤ ni')
    (hbound : ∀ t ∈ ts, t.id < ni) (hnd : (ts.map Turn.id).Nodup) :
    (∀ t ∈ ts', t.id < ni') ∧ (ts'.map Turn.id).Nodup := by
  constructor
  · intro t' ht'
    have hidmem : t'.id ∈ ts'.map Turn.id := List.mem_map_of_mem _ ht'
    rw [hmap] at hidmem
    rcases List.mem_map.mp hidmem with ⟨t, htmem, hid⟩
    calc t'.id = t.id := hid.symm
      _ < ni := hbound t htmem
      _ ≤ ni' := hle
  · rw [hmap]; exact hnd

/-- Appending one fresh turn keeps turn ids consistent. -/
theorem idsOk_append_fresh {ts ts' : List Turn} {ni : Nat} (st : TurnState)
    (hmap : ts'.map Turn.id = ts.map Turn.id)
    (hbound : ∀ t ∈ ts, t.id < ni) (hnd : (ts.map Turn.id).Nodup) :
    (∀ t ∈ ts' ++ [(⟨ni, st⟩ : Turn)], t.id < ni + 1)
    ∧ ((ts' ++ [(⟨ni, st⟩ : Turn)]).map Turn.id).Nodup := by
  have hbase := idsOk_of_map_eq hmap (Nat.le_succ ni) hbound hnd
  constructor
  · intro t ht
    rcases List.mem_append.mp ht with h1 | h2
    · exact hbase.1 t h1
    · have : t = ⟨ni, st⟩ := by simpa using h2
      rw [this]
      exact Nat.lt_succ_self ni
  · rw [List.map_append, List.nodup_append]
    refine ⟨hbase.2, List.nodup_singleton _, ?_⟩
    intro x hx hmem
    have hxni : x = Turn.id ⟨ni, st⟩ := by simpa using hmem
    rw [hmap] at hx
    rcases List.mem_map.mp hx with ⟨t, htmem, hid⟩
    have hlt := hbound t htmem
    rw [hid, hxni] at hlt
    exact Nat.lt_irrefl ni hlt

/-- One orchestrator decision preserves turn-id consistency. -/
theorem idsOk_step (s : SessState) (e : PipeEvent) (h : IdsOk s) :
    IdsOk (step s e).1 := by
  rcases h with ⟨hbound, hnd⟩
  have hadv : ∀ src dst, IdsOk (advanceActive s src dst) := by
    intro src dst
    unfold advanceActive
    cases hf : s.turns.find? isActive with
    | none => simp only [hf]; exact ⟨hbound, hnd⟩
    | some t =>
      simp only [hf]
      by_cases hst : t.state = src
      · rw [if_pos hst]
        exact idsOk_of_map_eq (setActiveState_map_id s.turns dst)
          (Nat.le_refl _) hbound hnd
      · rw [if_neg hst]
        exact ⟨hbound, hnd⟩
  cases e with
  | speechStart =>
    unfold step
    cases hf : s.turns.find? isActive with
    | none =>
      simp only [hf]
      exact idsOk_append_fresh .transcribing rfl hbound hnd
    | some t =>
      simp only [hf]
      by_cases hst : t.state = .replying ∨ t.state = .speaking
      · rw [if_pos hst]
        exact idsOk_append_fresh .transcribing
          (setActiveState_map_id s.turns .interrupted) hbound hnd
      · rw [if_neg hst]
        exact ⟨hbound, hnd⟩
  | speechEnd => exact hadv _ _
  | replyStart => exact hadv _ _
  | synthStart => exact hadv _ _
  | synthChunk c =>
    unfold step
    cases hf : s.turns.find? isActive with
    | none => simp only [hf]; exact ⟨hbound, hnd⟩
    | some t =>
      simp only [hf]
      by_cases hst : t.state = .speaking
      · rw [if_pos hst]; exact ⟨hbound, hnd⟩
      · rw [if_neg hst]; exact ⟨hbound, hnd⟩
  | flush =>
    unfold step
    cases hf : s.turns.find? isActive with
    | none => simp only [hf]; exact ⟨hbound, hnd⟩
    | some t =>
      simp only [hf]
      by_cases hst : t.state = .speaking
      · rw [if_pos hst]; exact ⟨hbound, hnd⟩
      · rw [if_neg hst]; exact ⟨hbound, hnd⟩
  | playbackDone =>
    unfold step
    cases hf : s.turns.find? isActive with
    | none => simp only [hf]; exact ⟨hbound, hnd⟩
    | some t =>
      simp only [hf]
      by_cases hst : t.state = .speaking
      · rw [if_pos hst]
        exact idsOk_of_map_eq (setActiveState_map_id s.turns .completed)
          (Nat.le_refl _) hbound hnd
      · rw [if_neg hst]; exact ⟨hbound, hnd⟩

/-- Turn-id consistency holds along every run from a consistent state. -/
theorem idsOk_runState (es : List PipeEvent) :
    ∀ s : SessState, IdsOk s → IdsOk (runState s es) := by
  induction es with
  | nil => intro s h; exact h
  | cons e es ih =>
    intro s h
    exact ih (step s e).1 (idsOk_step s e h)

/-- Once a turn with a given id is terminal, it stays terminal through
every orchestrator decision: decisions only rewrite active turns and
append fresh ones. -/
theorem dead_step (s : SessState) (e : PipeEvent) (n : Nat)
    (h : deadTurn s n) : deadTurn (step s e).1 n := by
  rcases h with ⟨t, htmem, htid, hterm⟩
  have hinact : isActive t = false := by simp [isActive, hterm]
  have hset : ∀ st, t ∈ setActiveState s.turns st := fun st =>
    mem_setActiveState_of_terminal htmem hinact
  have hadv : ∀ src dst, deadTurn (advanceActive s src dst) n := by
    intro src dst
    unfold advanceActive
    cases hf : s.turns.find? isActive with
    | none => simp only [hf]; exact ⟨t, htmem, htid, hterm⟩
    | some t' =>
      simp only [hf]
      by_cases hst : t'.state = src
      · rw [if_pos hst]
        exact ⟨t, hset dst, htid, hterm⟩
      · rw [if_neg hst]
        exact ⟨t, htmem, htid, hterm⟩
  cases e with
  | speechStart =>
    unfold step
    cases hf : s.turns.find? isActive with
    | none =>
      simp only [hf]
      exact ⟨t, List.mem_append_left _ htmem, htid, hterm⟩
    | some t' =>
      simp only [hf]
      by_cases hst : t'.state = .replying ∨ t'.state = .speaking
      · rw [if_pos hst]
        exact ⟨t, List.mem_append_left _ (hset .interrupted), htid, hterm⟩
      · rw [if_neg hst]
        exact ⟨t, htmem, htid, hterm⟩
  | speechEnd => exact hadv _ _
  | replyStart => exact hadv _ _
  | synthStart => exact hadv _ _
  | synthChunk c =>
    unfold step
    cases hf : s.turns.find? isActive with
    | none => simp only [hf]; exact ⟨t, htmem, htid, hterm⟩
    | some t' =>
      simp only [hf]
      by_cases hst : t'.state = .speaking
      · rw [if_pos hst]; exact ⟨t, htmem, htid, hterm⟩
      · rw [if_neg hst]; exact ⟨t, htmem, htid, hterm⟩
  | flush =>
    unfold step
    cases hf : s.turns.find? isActive with
    | none => simp only [hf]; exact ⟨t, htmem, htid, hterm⟩
    | some t' =>
      simp only [hf]
      by_cases hst : t'.state = .speaking
      · rw [if_pos hst]; exact ⟨t, htmem, htid, hterm⟩
      · rw [if_neg hst]; exact ⟨t, htmem, htid, hterm⟩
  | playbackDone =>
    unfold step
    cases hf : s.turns.find? isActive with
    | none => simp only [hf]; exact ⟨t, htmem, htid, hterm⟩
    | some t' =>
      simp only [hf]
      by_cases hst : t'.state = .speaking
      · rw [if_pos hst]
        exact ⟨t, hset .completed, htid, hterm⟩
      · rw [if_neg hst]; exact ⟨t, htmem, htid, hterm⟩

/-- Every chunk crossing the output boundary in one decision carries the
id of the turn that is active at that decision. -/
theorem step_out (s : SessState) (e : PipeEvent) (c : AudioOutputChunk)
    (hc : c ∈ (step s e).2) :
    ∃ t, s.turns.find? isActive = some t ∧ c.turnId = t.id := by
  cases e with
  | speechStart =>
    cases hf : s.turns.find? isActive with
    | none => simp [step, hf] at hc
    | some t =>
      simp only [step, hf] at hc
      by_cases hst : t.state = .replying ∨ t.state = .speaking
      · rw [if_pos hst] at hc; simp at hc
      · rw [if_neg hst] at hc; simp at hc
  | speechEnd => simp [step] at hc
  | replyStart => simp [step] at hc
  | synthStart => simp [step] at hc
  | synthChunk k =>
    cases hf : s.turns.find? isActive with
    | none => simp [step, hf] at hc
    | some t =>
      simp only [step, hf] at hc
      by_cases hst : t.state = .speaking
      · rw [if_pos hst] at hc; simp at hc
      · rw [if_neg hst] at hc; simp at hc
  | flush =>
    cases hf : s.turns.find? isActive with
    | none => simp [step, hf] at hc
    | some t =>
      simp only [step, hf] at hc
      by_cases hst : t.state = .speaking
      · rw [if_pos hst] at hc
        refine ⟨t, rfl, ?_⟩
        have := (List.mem_filter.mp hc).2
        simpa using this
      · rw [if_neg hst] at hc; simp at hc
  | playbackDone =>
    cases hf : s.turns.find? isActive with
    | none => simp [step, hf] at hc
    | some t =>
      simp only [step, hf] at hc
      by_cases hst : t.state = .speaking
      · rw [if_pos hst] at hc
        refine ⟨t, rfl, ?_⟩
        have := (List.mem_filter.mp hc).2
        simpa using this
      · rw [if_neg hst] at hc; simp at hc

/-- Under consistent ids, no chunk emitted by a decision can carry the id
of a turn that is already terminal. -/
theorem step_out_ne (s : SessState) (e : PipeEvent) (n : Nat)
    (hIds : IdsOk s) (hdead : deadTurn s n) (c : AudioOutputChunk)
    (hc : c ∈ (step s e).2) : c.turnId ≠ n := by
  rcases step_out s e c hc with ⟨t, hf, hcid⟩
  have htmem := List.mem_of_find?_eq_some hf
  have htact : isActive t = true := List.find?_some hf
  rcases hdead with ⟨td, htdmem, htdid, htdterm⟩
  intro hEq
  have hids : t.id = td.id := by
    rw [← hcid, hEq, ← htdid]
  have hsame : t = td :=
    List.inj_on_of_nodup_map hIds.2 htmem htdmem hids
  rw [hsame] at htact
  simp [isActive, htdterm] at htact

/-- No chunk carrying the id of an already-terminal turn is ever emitted
later in the run. -/
theorem runOutputs_all_ne (n : Nat) (es : List PipeEvent) :
    ∀ s : SessState, IdsOk s → deadTurn s n →
      ∀ c ∈ runOutputs s es, c.turnId ≠ n := by
  induction es with
  | nil =>
    intro s _ _ c hc
    simp [runOutputs] at hc
  | cons e es ih =>
    intro s hIds hdead c hc
    simp only [runOutputs] at hc
    rcases List.mem_append.mp hc with h1 | h2
    · exact step_out_ne s e n hIds hdead c h1
    · exact ih (step s e).1 (idsOk_step s e hIds) (dead_step s e n hdead) c h2

/-- The barge-in hypothesis names an active `replying`/`speaking` turn. -/
theorem activeRS_spec (s : SessState) (n : Nat)
    (h : activeReplyingOrSpeaking s n = true) :
    ∃ t, s.turns.find? isActive = some t ∧ t.id = n
      ∧ (t.state = .replying ∨ t.state = .speaking) := by
  unfold activeReplyingOrSpeaking at h
  cases hf : s.turns.find? isActive with
  | none => rw [hf] at h; simp at h
  | some t =>
    rw [hf] at h
    simp only [Bool.and_eq_true, Bool.or_eq_true, beq_iff_eq] at h
    exact ⟨t, rfl, h.1, h.2⟩

/-- A `speechStart` during `replying`/`speaking` emits nothing at the
decision itself and leaves the interrupted turn terminal. -/
theorem step_interrupt (s : SessState) (n : Nat)
    (h : activeReplyingOrSpeaking s n = true) :
    (step s .speechStart).2 = [] ∧ deadTurn (step s .speechStart).1 n := by
  rcases activeRS_spec s n h with ⟨t, hf, hid, hstate⟩
  have htmem := List.mem_of_find?_eq_some hf
  have htact : isActive t = true := List.find?_some hf
  simp only [step, hf]
  rw [if_pos hstate]
  refine ⟨rfl, ⟨{ t with state := .interrupted }, ?_, hid, rfl⟩⟩
  exact List.mem_append_left _ (mem_setActiveState_of_active htmem htact)

/-- C7: if a `speechStart` arrives while the active turn `n` is
`replying` or `speaking`, then no audio chunk carrying turn id `n`
crosses the output boundary from that arrival on — including audio
already buffered internally, which is dropped. -/
theorem c7_interruption_cutoff (es1 es2 : List PipeEvent) (n : Nat)
    (h : activeReplyingOrSpeaking (runState initState es1) n = true) :
    (runOutputs (runState initState es1) (.speechStart :: es2)).all
      (fun c => c.turnId != n) = true := by
  have hIds : IdsOk (runState initState es1) :=
    idsOk_runState es1 initState ⟨by simp [initState], by simp [initState]⟩
  rcases step_interrupt (runState initState es1) n h with ⟨hout, hdead⟩
  have hIds2 : IdsOk (step (runState initState es1) .speechStart).1 :=
    idsOk_step (runState initState es1) .speechStart hIds
  rw [List.all_eq_true]
  intro c hc
  simp only [runOutputs, hout, List.nil_append] at hc
  have hne := runOutputs_all_ne n es2 (step (runState initState es1) .speechStart).1
    hIds2 hdead c hc
  simpa using hne

/-- Witness for C7: turn 0 is interrupted mid-speech with a chunk still
buffered; the following turn runs to completion and only its chunks cross
the boundary. -/
theorem c7_interruption_cutoff_witness :
    (runOutputs
        (runState initState
          [.speechStart, .speechEnd, .replyStart, .synthStart, .synthChunk 3])
        (.speechStart ::
          [.speechEnd, .replyStart, .synthStart, .synthChunk 7, .flush])).all
      (fun c => c.turnId != 0) = true :=
  c7_interruption_cutoff
    [.speechStart, .speechEnd, .replyStart, .synthStart, .synthChunk 3]
    [.speechEnd, .replyStart, .synthStart, .synthChunk 7, .flush]
    0 (by decide)

end LocalVoiceAI
